import Mathlib

/-!
# Verification of the stark-template constraint-and-trace subsystem

Shallow embedding of `src/air.rs` from the `stark-template` repository:
the trace builder, public-input extractor, AIR constraint definition and
codec, over the 128-bit prime field `f128` of the winterfell library.
Machine integers (`u128`) are modelled as `Nat` with explicit range
hypotheses where the Rust arithmetic could overflow or underflow.
-/

namespace StarkTemplate

/-- The modulus of winterfell's `f128` base field: `2^128 - 45·2^40 + 1`. -/
def P : Nat := 2 ^ 128 - 45 * 2 ^ 40 + 1

theorem P_pos : 0 < P := by norm_num [P]

theorem one_lt_P : 1 < P := by norm_num [P]

theorem P_lt_two_pow_128 : P < 2 ^ 128 := by norm_num [P]

instance : NeZero P := ⟨Nat.pos_iff_ne_zero.mp P_pos⟩

/-- `BaseElement = winter_math::fields::f128::BaseElement`: an element of the
prime field of order `P`, in canonical representation. -/
abbrev BaseElement := Fin P

/-- `BaseElement::new(value)` / `BaseElement::from(value: u128)`: construct a
field element from an unsigned integer, reducing modulo `P`.  (The source
reduces a `u128` by one conditional subtraction of `P`, which agrees with
`% P` on the whole `u128` range since `2^128 < 2·P`.) -/
def BaseElement.new (v : Nat) : BaseElement := ⟨v % P, Nat.mod_lt _ P_pos⟩

/-- `PublicInputs { start, result }` from `air.rs`. -/
structure PublicInputs where
  start : BaseElement
  result : BaseElement
deriving DecidableEq

/-- The `InputArg { start: u128, n: usize }` configuration from `air.rs`. -/
structure InputArg where
  start : Nat
  n : Nat

/-- A trace row: the `state` vector of the fill closures (`width = 4`). -/
abbrev RowType := List BaseElement

/-- The init closure of `trace.fill` in `build_trace`: row 0.
`a = start`, `b = n`;
`state[0] = |a − b|`, `state[1] = a + 1`, `state[2] = b − 1`,
`state[3] = 1 if a + 1 > b − 1 else 0` (unsigned comparison). -/
def initRow (arg : InputArg) : RowType :=
  [ if arg.start > arg.n then BaseElement.new (arg.start - arg.n)
      else BaseElement.new (arg.n - arg.start),
    BaseElement.new (arg.start + 1),
    BaseElement.new (arg.n - 1),
    if arg.start + 1 > arg.n - 1 then 1 else 0 ]

/-- The update closure of `trace.fill` in `build_trace`: transforms the state
holding row `last_step` into row `last_step + 1`.
`state[0]` is recomputed in-field from the previous row's columns 1–3;
`next = last_step + 2`; `state[1] = start + next`, `state[2] = n − next`,
`state[3] = 1 if start + next > n − next else 0`. -/
def updateRow (arg : InputArg) (lastStep : Nat) (s : RowType) : RowType :=
  let next : Nat := lastStep + 2
  [ s.getD 3 0 * (s.getD 1 0 - s.getD 2 0) +
      ((1 : BaseElement) - s.getD 3 0) * (s.getD 2 0 - s.getD 1 0),
    BaseElement.new (arg.start + next),
    BaseElement.new (arg.n - next),
    if arg.start + next > arg.n - next then 1 else 0 ]

/-- Row `i` of the filled trace: row 0 from the init closure, row `i+1` from
the update closure applied with `last_step = i` to row `i` (the semantics of
winterfell's `TraceTable::fill`). -/
def traceRow (arg : InputArg) : Nat → RowType
  | 0 => initRow arg
  | i + 1 => updateRow arg i (traceRow arg i)

/-- `build_trace(arg)`: a trace of `arg.n` rows, width 4, produced by
`TraceTable::new(4, n)` followed by `trace.fill(init, update)`. -/
def build_trace (arg : InputArg) : List RowType :=
  (List.range arg.n).map (traceRow arg)

/-- `get_pub_inputs(trace)`: `start = trace.get(0, 0)`,
`result = trace.get(0, last_step)` with `last_step = trace.length() − 1`
(`TraceTable::get(column, row)`). -/
def get_pub_inputs (trace : List RowType) : PublicInputs :=
  { start := (trace.getD 0 []).getD 0 0
    result := (trace.getD (trace.length - 1) []).getD 0 0 }

/-- The fragment of winterfell's `TraceInfo` the AIR consults. -/
structure TraceInfo where
  width : Nat
  length : Nat

/-- The fragment of winterfell's `AirContext` populated by `FreshAir::new`:
trace shape, transition-constraint degrees, number of boundary assertions. -/
structure AirContext where
  trace_info : TraceInfo
  degrees : List Nat
  num_assertions : Nat

/-- The `FreshAir` AIR struct. -/
structure FreshAir where
  context : AirContext
  start : BaseElement
  result : BaseElement

/-- `FreshAir::new(trace_info, pub_inputs, options)`.  The source begins with
`assert_eq!(4, trace_info.width())`, a hard panic on mismatch, modelled as
`none`; on success it records degrees `[2]` and `num_assertions = 2`. -/
def FreshAir.new (trace_info : TraceInfo) (pub_inputs : PublicInputs) :
    Option FreshAir :=
  if trace_info.width = 4 then
    some { context := { trace_info := trace_info, degrees := [2], num_assertions := 2 }
           start := pub_inputs.start
           result := pub_inputs.result }
  else none

/-- `FreshAir::evaluate_transition` instantiated at the base field: the single
residual `result[0] = next[0] − (cur[3]·(cur[1]−cur[2]) + (1−cur[3])·(cur[2]−cur[1]))`. -/
def evaluate_transition (current next : RowType) : BaseElement :=
  next.getD 0 0 -
    (current.getD 3 0 * (current.getD 1 0 - current.getD 2 0) +
      ((1 : BaseElement) - current.getD 3 0) * (current.getD 2 0 - current.getD 1 0))

/-- A winterfell boundary `Assertion::single(column, step, value)`. -/
structure Assertion where
  column : Nat
  step : Nat
  value : BaseElement
deriving DecidableEq

/-- `FreshAir::get_assertions`: column 0 at step 0 equals `start`, column 0 at
the last step equals `result`. -/
def FreshAir.get_assertions (air : FreshAir) : List Assertion :=
  let last_step := air.context.trace_info.length - 1
  [ { column := 0, step := 0, value := air.start },
    { column := 0, step := last_step, value := air.result } ]

/-! ## Codec: decimal strings for field elements, base64 for proof bytes -/

/-- ASCII digit character for `d < 10`. -/
def digitToChar (d : Nat) : Char := Char.ofNat (48 + d)

/-- Little-endian base-10 digits of `n`, with explicit structural fuel
(`fuel ≥ n` suffices for the recursion to bottom out). -/
def natToDigitsAux : Nat → Nat → List Nat
  | 0, _ => []
  | fuel + 1, n => if n = 0 then [] else n % 10 :: natToDigitsAux fuel (n / 10)

/-- Rust's `u128::to_string` (via `Display` on the canonical value): the
decimal digit characters of `n`, most significant first; `"0"` for zero. -/
def natToString (n : Nat) : List Char :=
  if n = 0 then [digitToChar 0]
  else ((natToDigitsAux n n).reverse).map digitToChar

/-- Numeric value of an ASCII decimal digit, `none` for any other character. -/
def charToDigit (c : Char) : Option Nat :=
  if 48 ≤ c.toNat ∧ c.toNat ≤ 57 then some (c.toNat - 48) else none

/-- Parse every character as a decimal digit, or fail. -/
def parseDigits : List Char → Option (List Nat)
  | [] => some []
  | c :: cs =>
    match charToDigit c, parseDigits cs with
    | some d, some ds => some (d :: ds)
    | _, _ => none

/-- Rust's `str::parse::<u128>()`: a non-empty all-digit string whose value
fits in an unsigned 128-bit integer; everything else is an error. -/
def parseU128 (s : List Char) : Option Nat :=
  if s.isEmpty then none
  else
    match parseDigits s with
    | none => none
    | some ds =>
      let v := ds.foldl (fun acc d => acc * 10 + d) 0
      if v < 2 ^ 128 then some v else none

/-- The standard base64 alphabet (RFC 4648, the `base64` crate's default). -/
def b64Alphabet : List Char :=
  ['A','B','C','D','E','F','G','H','I','J','K','L','M','N','O','P','Q','R',
   'S','T','U','V','W','X','Y','Z','a','b','c','d','e','f','g','h','i','j',
   'k','l','m','n','o','p','q','r','s','t','u','v','w','x','y','z','0','1',
   '2','3','4','5','6','7','8','9','+','/']

/-- Character of a 6-bit group. -/
def b64Char (i : Nat) : Char := b64Alphabet.getD i 'A'

def b64IndexAux : List Char → Char → Nat → Option Nat
  | [], _, _ => none
  | a :: as, c, k => if a = c then some k else b64IndexAux as c (k + 1)

/-- 6-bit value of a base64 character, `none` if not in the alphabet. -/
def b64Index (c : Char) : Option Nat := b64IndexAux b64Alphabet c 0

/-- `base64::encode` (standard alphabet, padded): bytes are taken three at a
time; each 24-bit group becomes four 6-bit characters, with `'='` padding for
a final group of one or two bytes. -/
def b64encode : List Nat → List Char
  | [] => []
  | [a] => [b64Char (a / 4), b64Char (a % 4 * 16), '=', '=']
  | [a, b] => [b64Char (a / 4), b64Char (a % 4 * 16 + b / 16), b64Char (b % 16 * 4), '=']
  | a :: b :: c :: rest =>
    b64Char (a / 4) :: b64Char (a % 4 * 16 + b / 16) ::
      b64Char (b % 16 * 4 + c / 64) :: b64Char (c % 64) :: b64encode rest

/-- `base64::decode` (standard alphabet, padded form): characters are consumed
four at a time; `'='` padding is legal only at the very end and yields a final
group of one or two bytes.  Any character outside the alphabet, or a length
not a multiple of four, is an error. -/
def b64decode : List Char → Option (List Nat)
  | [] => some []
  | c1 :: c2 :: c3 :: c4 :: rest =>
    match b64Index c1, b64Index c2 with
    | some i1, some i2 =>
      if c3 = '=' then
        if c4 = '=' ∧ rest = [] then some [i1 * 4 + i2 / 16] else none
      else
        match b64Index c3 with
        | some i3 =>
          if c4 = '=' then
            if rest = [] then some [i1 * 4 + i2 / 16, i2 % 16 * 16 + i3 / 4]
            else none
          else
            match b64Index c4 with
            | some i4 =>
              match b64decode rest with
              | some bs =>
                some ((i1 * 4 + i2 / 16) :: (i2 % 16 * 16 + i3 / 4) ::
                  (i3 % 4 * 64 + i4) :: bs)
              | none => none
            | none => none
        | none => none
    | _, _ => none
  | _ => none

/-- The persisted `Data` record: `{ start, result, proof }`, all strings. -/
structure Data where
  start : List Char
  result : List Char
  proof : List Char
deriving DecidableEq

/-- `to_data(proof, public_input)`: field elements printed as decimal strings
(`to_string` of the canonical value), proof bytes base64-encoded. -/
def to_data (proof : List Nat) (public_input : PublicInputs) : Data :=
  { start := natToString public_input.start.val
    result := natToString public_input.result.val
    proof := b64encode proof }

/-- `from_data(data)`: parse both decimal strings as `u128` and construct
field elements with `BaseElement::new`, base64-decode the proof string.  The
source's `.unwrap()` panics on any failure, modelled as `none`. -/
def from_data (data : Data) : Option (PublicInputs × List Nat) :=
  match parseU128 data.start, parseU128 data.result, b64decode data.proof with
  | some s, some r, some p =>
    some ({ start := BaseElement.new s, result := BaseElement.new r }, p)
  | _, _, _ => none

/-! ## Helper lemmas about the trace builder -/

theorem build_trace_getD (arg : InputArg) (i : Nat) (h : i < arg.n) :
    (build_trace arg).getD i [] = traceRow arg i := by
  unfold build_trace
  have hlen : i < ((List.range arg.n).map (traceRow arg)).length := by simp [h]
  rw [List.getD_eq_getElem _ _ hlen, List.getElem_map, List.getElem_range]

theorem traceRow_length (arg : InputArg) (i : Nat) : (traceRow arg i).length = 4 := by
  cases i <;> rfl

theorem traceRow_col3 (arg : InputArg) (i : Nat) :
    (traceRow arg i).getD 3 0 = 0 ∨ (traceRow arg i).getD 3 0 = 1 := by
  cases i with
  | zero =>
    show (if arg.start + 1 > arg.n - 1 then (1 : BaseElement) else 0) = 0 ∨
      (if arg.start + 1 > arg.n - 1 then (1 : BaseElement) else 0) = 1
    split
    · right; rfl
    · left; rfl
  | succ k =>
    show (if arg.start + (k + 2) > arg.n - (k + 2) then (1 : BaseElement) else 0) = 0 ∨
      (if arg.start + (k + 2) > arg.n - (k + 2) then (1 : BaseElement) else 0) = 1
    split
    · right; rfl
    · left; rfl

theorem traceRow_col12 (arg : InputArg) (i : Nat) :
    (traceRow arg i).getD 1 0 = BaseElement.new (arg.start + i + 1) ∧
    (traceRow arg i).getD 2 0 = BaseElement.new (arg.n - (i + 1)) := by
  cases i with
  | zero => exact ⟨rfl, rfl⟩
  | succ k => exact ⟨rfl, rfl⟩

/-! ## Claims about the trace builder and the AIR -/

/-- C1: for every configuration accepted by the trace builder and every
adjacent row pair (r, r+1) of the built trace, the AIR transition evaluator
over the base field yields the zero residual. -/
theorem transition_residual_zero (arg : InputArg) (r : Nat) (h : r + 1 < arg.n) :
    evaluate_transition ((build_trace arg).getD r [])
      ((build_trace arg).getD (r + 1) []) = 0 := by
  rw [build_trace_getD arg r (by omega), build_trace_getD arg (r + 1) h]
  simp only [traceRow]
  simp [evaluate_transition, updateRow, List.getD]

theorem transition_residual_zero_witness :
    evaluate_transition ((build_trace ⟨0, 4⟩).getD 1 [])
      ((build_trace ⟨0, 4⟩).getD 2 []) = 0 :=
  transition_residual_zero ⟨0, 4⟩ 1 (by decide)

/-- C4: for every non-empty trace, `get_pub_inputs` returns the pair
(column 0 of row 0, column 0 of the final row); being a pure function of a
shared borrow, it leaves the trace unchanged. -/
theorem get_pub_inputs_boundary (t : List RowType) (h : t ≠ []) :
    (get_pub_inputs t).start = (t.head h).getD 0 0 ∧
    (get_pub_inputs t).result = (t.getLast h).getD 0 0 := by
  have hlen : 0 < t.length := List.length_pos.mpr h
  constructor
  · cases t with
    | nil => exact absurd rfl h
    | cons a l => rfl
  · show (t.getD (t.length - 1) []).getD 0 0 = _
    rw [List.getLast_eq_getElem,
      show t.getD (t.length - 1) [] = t[t.length - 1] from
        List.getD_eq_getElem t [] (by omega)]

theorem get_pub_inputs_boundary_witness :
    (get_pub_inputs [[(1 : BaseElement)], [(2 : BaseElement)]]).start = 1 ∧
    (get_pub_inputs [[(1 : BaseElement)], [(2 : BaseElement)]]).result = 2 := by
  have h := get_pub_inputs_boundary [[(1 : BaseElement)], [(2 : BaseElement)]] (by simp)
  simpa using h

/-- C5: `FreshAir::new` succeeds exactly when the supplied trace width is the
declared width 4; any other width is a hard, immediate failure. -/
theorem new_width_guard (trace_info : TraceInfo) (pub_inputs : PublicInputs) :
    (FreshAir.new trace_info pub_inputs).isSome ↔ trace_info.width = 4 := by
  unfold FreshAir.new
  split <;> simp_all

/-- C6: the AIR declares exactly 2 boundary assertions, and `get_assertions`
returns exactly: cell (column 0, row 0) = public start and cell
(column 0, final row) = public result. -/
theorem get_assertions_spec (trace_info : TraceInfo) (pub_inputs : PublicInputs)
    (air : FreshAir) (h : FreshAir.new trace_info pub_inputs = some air) :
    air.context.num_assertions = 2 ∧
    air.get_assertions =
      [⟨0, 0, pub_inputs.start⟩, ⟨0, trace_info.length - 1, pub_inputs.result⟩] := by
  unfold FreshAir.new at h
  split at h
  · cases h
    exact ⟨rfl, rfl⟩
  · cases h

theorem get_assertions_spec_witness :
    (FreshAir.mk ⟨⟨4, 8⟩, [2], 2⟩ (BaseElement.new 3) (BaseElement.new 5)).context.num_assertions = 2 ∧
    (FreshAir.mk ⟨⟨4, 8⟩, [2], 2⟩ (BaseElement.new 3) (BaseElement.new 5)).get_assertions =
      [⟨0, 0, BaseElement.new 3⟩, ⟨0, 8 - 1, BaseElement.new 5⟩] :=
  get_assertions_spec ⟨4, 8⟩ ⟨BaseElement.new 3, BaseElement.new 5⟩ _ rfl

/-- C7: for every configuration, `build_trace` returns a trace of exactly
`n` rows, each of width 4. -/
theorem build_trace_shape (arg : InputArg) :
    (build_trace arg).length = arg.n ∧ ∀ row ∈ build_trace arg, row.length = 4 := by
  refine ⟨by simp [build_trace], ?_⟩
  intro row hrow
  simp only [build_trace, List.mem_map, List.mem_range] at hrow
  obtain ⟨i, -, rfl⟩ := hrow
  exact traceRow_length arg i

theorem build_trace_shape_witness :
    (build_trace ⟨0, 2⟩).length = 2 ∧ (initRow ⟨0, 2⟩).length = 4 :=
  ⟨(build_trace_shape ⟨0, 2⟩).1,
   (build_trace_shape ⟨0, 2⟩).2 (initRow ⟨0, 2⟩) (by decide)⟩

/-- C8: row 0 of the built trace is
`(|start − n|, start + 1, n − 1, if start + 1 > n − 1 then 1 else 0)`,
each integer converted to a field element. -/
theorem build_trace_row_zero (arg : InputArg) (h1 : 1 ≤ arg.n)
    (h2 : arg.start + arg.n < 2 ^ 128) :
    (build_trace arg).getD 0 [] =
      [ BaseElement.new ((arg.start : ℤ) - arg.n).natAbs,
        BaseElement.new (arg.start + 1),
        BaseElement.new (arg.n - 1),
        if arg.start + 1 > arg.n - 1 then 1 else 0 ] := by
  rw [build_trace_getD arg 0 (by omega)]
  have habs : ((arg.start : ℤ) - arg.n).natAbs =
      if arg.start > arg.n then arg.start - arg.n else arg.n - arg.start := by
    split <;> omega
  simp only [traceRow, initRow, habs, apply_ite BaseElement.new]

theorem build_trace_row_zero_witness :
    (build_trace ⟨5, 3⟩).getD 0 [] =
      [BaseElement.new 2, BaseElement.new 6, BaseElement.new 2, 1] := by
  rw [build_trace_row_zero ⟨5, 3⟩ (by decide) (by decide)]
  decide

/-- C9: in every built trace, column 1 of row `i` holds `start + i + 1` and
column 2 holds `n − (i + 1)` as field elements, provided the unsigned
arithmetic stays in the 128-bit range. -/
theorem build_trace_bounds_columns (arg : InputArg) (i : Nat) (h1 : i < arg.n)
    (h2 : arg.start + i + 1 < 2 ^ 128) :
    ((build_trace arg).getD i []).getD 1 0 = BaseElement.new (arg.start + i + 1) ∧
    ((build_trace arg).getD i []).getD 2 0 = BaseElement.new (arg.n - (i + 1)) := by
  rw [build_trace_getD arg i h1]
  exact traceRow_col12 arg i

theorem build_trace_bounds_columns_witness :
    ((build_trace ⟨0, 4⟩).getD 2 []).getD 1 0 = BaseElement.new 3 ∧
    ((build_trace ⟨0, 4⟩).getD 2 []).getD 2 0 = BaseElement.new 1 :=
  build_trace_bounds_columns ⟨0, 4⟩ 2 (by decide) (by decide)

/-- C10: in every row of every built trace, the indicator column 3 is either
the field zero or the field one. -/
theorem indicator_column_boolean (arg : InputArg) (row : RowType)
    (h : row ∈ build_trace arg) :
    row.getD 3 0 = 0 ∨ row.getD 3 0 = 1 := by
  simp only [build_trace, List.mem_map, List.mem_range] at h
  obtain ⟨i, -, rfl⟩ := h
  exact traceRow_col3 arg i

theorem indicator_column_boolean_witness :
    (initRow ⟨0, 2⟩).getD 3 0 = 0 ∨ (initRow ⟨0, 2⟩).getD 3 0 = 1 :=
  indicator_column_boolean ⟨0, 2⟩ (initRow ⟨0, 2⟩) (by decide)

/-! ## Codec lemmas -/

/-- Value of a little-endian base-10 digit list. -/
def ofDigitsLE : List Nat → Nat
  | [] => 0
  | d :: ds => d + 10 * ofDigitsLE ds

theorem ofDigitsLE_natToDigitsAux (fuel : Nat) :
    ∀ n, n ≤ fuel → ofDigitsLE (natToDigitsAux fuel n) = n := by
  induction fuel with
  | zero =>
    intro n h
    interval_cases n
    rfl
  | succ f ih =>
    intro n h
    by_cases hn : n = 0
    · subst hn; rfl
    · show ofDigitsLE (if n = 0 then [] else n % 10 :: natToDigitsAux f (n / 10)) = n
      rw [if_neg hn]
      show n % 10 + 10 * ofDigitsLE (natToDigitsAux f (n / 10)) = n
      rw [ih (n / 10) (by omega)]
      omega

theorem natToDigitsAux_lt_ten (fuel : Nat) :
    ∀ n d, d ∈ natToDigitsAux fuel n → d < 10 := by
  induction fuel with
  | zero =>
    intro n d hd
    simp [natToDigitsAux] at hd
  | succ f ih =>
    intro n d hd
    rw [natToDigitsAux] at hd
    split at hd
    · simp at hd
    · rcases List.mem_cons.mp hd with h | h
      · omega
      · exact ih _ _ h

theorem foldl_reverse_ofDigitsLE (l : List Nat) :
    ∀ acc : Nat, l.reverse.foldl (fun a d => a * 10 + d) acc =
      acc * 10 ^ l.length + ofDigitsLE l := by
  induction l with
  | nil => intro acc; simp [ofDigitsLE]
  | cons d t ih =>
    intro acc
    simp only [List.reverse_cons, List.foldl_append, List.foldl_cons, List.foldl_nil,
      ih, ofDigitsLE, List.length_cons, pow_succ]
    ring

theorem charToDigit_digitToChar (d : Nat) (h : d < 10) :
    charToDigit (digitToChar d) = some d := by
  interval_cases d <;> rfl

theorem parseDigits_map_digitToChar (ds : List Nat) (h : ∀ d ∈ ds, d < 10) :
    parseDigits (ds.map digitToChar) = some ds := by
  induction ds with
  | nil => rfl
  | cons d t ih =>
    simp only [List.map_cons, parseDigits]
    rw [charToDigit_digitToChar d (h d (by simp)), ih (fun x hx => h x (by simp [hx]))]

theorem parseU128_natToString (n : Nat) (h : n < 2 ^ 128) :
    parseU128 (natToString n) = some n := by
  by_cases hn : n = 0
  · subst hn
    show parseU128 [digitToChar 0] = some 0
    rfl
  · have hne : natToDigitsAux n n ≠ [] := by
      cases n with
      | zero => exact absurd rfl hn
      | succ m => simp [natToDigitsAux]
    have hlt : ∀ d ∈ (natToDigitsAux n n).reverse, d < 10 := by
      intro d hd
      exact natToDigitsAux_lt_ten n n d (List.mem_reverse.mp hd)
    unfold natToString
    rw [if_neg hn]
    unfold parseU128
    have hemp : (((natToDigitsAux n n).reverse).map digitToChar).isEmpty = false := by
      simp [List.isEmpty_iff, hne]
    rw [hemp]
    simp only [Bool.false_eq_true, if_false,
      parseDigits_map_digitToChar _ hlt, foldl_reverse_ofDigitsLE,
      ofDigitsLE_natToDigitsAux n n le_rfl, Nat.zero_mul, Nat.zero_add]
    rw [if_pos h]

theorem b64Index_b64Char_fin : ∀ i : Fin 64, b64Index (b64Char i.val) = some i.val := by
  decide

theorem b64Char_ne_pad_fin : ∀ i : Fin 64, b64Char i.val ≠ '=' := by
  decide

theorem b64Index_b64Char (i : Nat) (h : i < 64) : b64Index (b64Char i) = some i :=
  b64Index_b64Char_fin ⟨i, h⟩

theorem b64Char_ne_pad (i : Nat) (h : i < 64) : b64Char i ≠ '=' :=
  b64Char_ne_pad_fin ⟨i, h⟩

theorem b64decode_b64encode (bs : List Nat) (h : ∀ b ∈ bs, b < 256) :
    b64decode (b64encode bs) = some bs := by
  induction bs using b64encode.induct with
  | case1 => rfl
  | case2 a =>
    have ha : a < 256 := h a (by simp)
    simp only [b64encode, b64decode]
    rw [b64Index_b64Char _ (by omega), b64Index_b64Char _ (by omega)]
    simp only [if_pos rfl, and_self, ite_true]
    simp only [Option.some.injEq, List.cons.injEq, and_true]
    omega
  | case3 a b =>
    have ha : a < 256 := h a (by simp)
    have hb : b < 256 := h b (by simp)
    have h1 : b64Index (b64Char (a / 4)) = some (a / 4) :=
      b64Index_b64Char _ (by omega)
    have h2 : b64Index (b64Char (a % 4 * 16 + b / 16)) = some (a % 4 * 16 + b / 16) :=
      b64Index_b64Char _ (by omega)
    have h3 : b64Index (b64Char (b % 16 * 4)) = some (b % 16 * 4) :=
      b64Index_b64Char _ (by omega)
    have hp3 : ¬(b64Char (b % 16 * 4) = '=') := b64Char_ne_pad _ (by omega)
    simp only [b64encode, b64decode, h1, h2, h3, if_neg hp3]
    simp only [if_pos rfl, ite_true, Option.some.injEq, List.cons.injEq, and_true]
    constructor <;> omega
  | case4 a b c rest ih =>
    have ha : a < 256 := h a (by simp)
    have hb : b < 256 := h b (by simp)
    have hc : c < 256 := h c (by simp)
    have hrest : ∀ x ∈ rest, x < 256 := fun x hx => h x (by simp [hx])
    have h1 : b64Index (b64Char (a / 4)) = some (a / 4) :=
      b64Index_b64Char _ (by omega)
    have h2 : b64Index (b64Char (a % 4 * 16 + b / 16)) = some (a % 4 * 16 + b / 16) :=
      b64Index_b64Char _ (by omega)
    have h3 : b64Index (b64Char (b % 16 * 4 + c / 64)) = some (b % 16 * 4 + c / 64) :=
      b64Index_b64Char _ (by omega)
    have h4 : b64Index (b64Char (c % 64)) = some (c % 64) :=
      b64Index_b64Char _ (by omega)
    have hp3 : ¬(b64Char (b % 16 * 4 + c / 64) = '=') := b64Char_ne_pad _ (by omega)
    have hp4 : ¬(b64Char (c % 64) = '=') := b64Char_ne_pad _ (by omega)
    simp only [b64encode, b64decode, h1, h2, h3, h4, if_neg hp3, if_neg hp4,
      ih hrest]
    simp only [Option.some.injEq, List.cons.injEq]
    refine ⟨by omega, by omega, by omega, trivial⟩

theorem BaseElement.new_val (x : BaseElement) : BaseElement.new x.val = x :=
  Fin.ext (Nat.mod_eq_of_lt x.isLt)

/-! ## Claims about the codec -/

/-- C2: decoding the encoded record recovers the public inputs and the proof
bytes exactly (`from_data ∘ to_data = id` on valid byte vectors). -/
theorem codec_round_trip (proof : List Nat) (public_input : PublicInputs)
    (h : ∀ b ∈ proof, b < 256) :
    from_data (to_data proof public_input) = some (public_input, proof) := by
  unfold from_data to_data
  rw [parseU128_natToString _ (lt_trans public_input.start.isLt P_lt_two_pow_128),
    parseU128_natToString _ (lt_trans public_input.result.isLt P_lt_two_pow_128),
    b64decode_b64encode proof h]
  simp [BaseElement.new_val]

theorem codec_round_trip_witness :
    from_data (to_data [77, 255, 0] ⟨BaseElement.new 3, BaseElement.new 9⟩) =
      some (⟨BaseElement.new 3, BaseElement.new 9⟩, [77, 255, 0]) :=
  codec_round_trip [77, 255, 0] ⟨BaseElement.new 3, BaseElement.new 9⟩ (by decide)

/-- The decimal string of the field modulus `P`. -/
def modulusStr : List Char :=
  ['3','4','0','2','8','2','3','6','6','9','2','0','9','3','8','4','6','3','4',
   '6','3','3','7','4','5','5','7','9','5','3','7','4','4','9','6','1','5','3','7']

/-- C3 counterexample: decoding a record whose `start` string is exactly the
field modulus succeeds (it does not fail), silently wrapping the element to
zero — the claimed CodecError never happens. -/
theorem from_data_accepts_modulus :
    from_data { start := modulusStr, result := ['0'], proof := [] } =
      some ({ start := BaseElement.new 0, result := BaseElement.new 0 }, []) := by
  decide

/-- C3 amended: whenever both decimal strings parse as `u128` values — either
of them possibly `≥ P` — and the base64 string decodes, `from_data` succeeds
and both field elements are the parsed integers silently reduced modulo `P`;
only a failed `u128` parse (non-numeric, empty, or `≥ 2^128`) or invalid
base64 makes the decode fail. -/
theorem from_data_reduces_mod_P (data : Data) (s r : Nat) (p : List Nat)
    (hs : parseU128 data.start = some s)
    (hr : parseU128 data.result = some r) (hp : b64decode data.proof = some p) :
    from_data data =
      some ({ start := BaseElement.new s, result := BaseElement.new r }, p) ∧
    (BaseElement.new s).val = s % P ∧ (BaseElement.new r).val = r % P := by
  unfold from_data
  rw [hs, hr, hp]
  exact ⟨rfl, rfl, rfl⟩

theorem from_data_reduces_mod_P_witness :
    from_data { start := ['0'], result := modulusStr, proof := [] } =
      some ({ start := BaseElement.new 0, result := BaseElement.new P }, []) ∧
    (BaseElement.new 0).val = 0 % P ∧ (BaseElement.new P).val = P % P :=
  from_data_reduces_mod_P _ 0 P [] (by decide) (by decide) (by decide)

end StarkTemplate
